import Mathlib

/-!
Verification of the `MyFile` resource accessor from `src/lab_77.py`.

The Python class `MyFile` binds a path-or-URL string to an access mode
(`read`, `write`, `append`, `url`) and offers `read`, `write`, `read_url`,
`count_urls` and `write_url` operations.  We give a shallow embedding:

* the local filesystem is an explicit `FS` value (association list of file
  contents, a list of directories, `os.access` readability/writability sets,
  and the set of directories `os.makedirs` is able to create);
* the network is a `Net` environment giving, for each URL, the outcome of
  the availability probe (`urllib.request.urlopen` with timeout 5) and of
  the content fetch (timeout 10).  The body carried by a successful fetch is
  the decoded text: the decoding chain of lines 186-199 of the source
  (utf-8, cp1251, koi8-r, iso-8859-1, then utf-8 with replacement) always
  yields a string, so the decoded result is taken as part of the response;
* every network request is recorded in an event log (`Event.get url timeout`),
  so "no network call happens before this failure" is a statement about the
  log;
* Python exceptions become an `Err` value: `ValueError` → `valueError`,
  `FileNotFoundError` → `fileNotFound`, `PermissionError` → `permissionError`,
  `ConnectionError` → `connectionError`, `IOError`/`OSError` → `ioError`.
-/

/-- Failure kinds surfaced by the accessor (the Python exception classes). -/
inductive Err where
  | valueError
  | fileNotFound
  | permissionError
  | connectionError
  | ioError
deriving DecidableEq, Repr

/-- One network request: a GET of `url` with the given timeout in seconds
(the probe uses 5, the content fetch uses 10). -/
inductive Event where
  | get (url : String) (timeoutSecs : Nat)
deriving DecidableEq, Repr

/-- Outcome of one `urllib.request.urlopen` call.  `success code body` is a
response object delivered without an exception (`body` is the decoded text of
`response.read()`); `httpError` is `urllib.error.HTTPError` with the given
status; `urlError` is `urllib.error.URLError`; `timeout` covers
`socket.timeout` / `TimeoutError`; `otherError` is any other exception. -/
inductive HttpResult where
  | success (code : Nat) (body : String)
  | httpError (code : Nat)
  | urlError
  | timeout
  | otherError
deriving DecidableEq, Repr

/-- The network environment: the result each URL gives to the availability
probe and to the content fetch (two separate requests in the source). -/
structure Net where
  probe : String → HttpResult
  fetch : String → HttpResult

/-- The local filesystem.  `files` maps paths to contents (first match wins),
`dirs` lists existing directories, `readable`/`writable` are the sets on which
`os.access(·, R_OK)` / `os.access(·, W_OK)` succeeds, and `creatable` the
directories `os.makedirs` can create (a failing `makedirs` models lines
79-82 of the source). -/
structure FS where
  files : List (String × String)
  dirs : List String
  readable : List String
  writable : List String
  creatable : List String
deriving DecidableEq, Repr

/-- `os.path.isdir`. -/
def FS.isdir (fs : FS) (p : String) : Bool :=
  fs.dirs.contains p

/-- `os.path.exists`: a path exists when it is a file or a directory. -/
def FS.pexists (fs : FS) (p : String) : Bool :=
  (fs.files.lookup p).isSome || fs.dirs.contains p

/-- Replace the content bound to `p` (used for `open(..., 'w'/'a')` writes). -/
def FS.setFile (fs : FS) (p c : String) : FS :=
  { fs with files := (p, c) :: fs.files.filter (fun kv => kv.1 ≠ p) }

/-- `os.path.dirname` (posixpath): everything up to the last `/`, with
trailing slashes stripped unless the head is all slashes. -/
def dirname (p : String) : String :=
  let l := p.toList
  let lastSeg := (l.reverse.takeWhile (fun c => c ≠ '/')).length
  let head := l.take (l.length - lastSeg)
  let head2 :=
    if !head.isEmpty && head.any (fun c => c ≠ '/') then
      (head.reverse.dropWhile (fun c => c = '/')).reverse
    else head
  String.mk head2

/-- `MyFile._file_exists` (lines 39-44): false for directories, else
`os.path.exists`. -/
def fileExists (fs : FS) (p : String) : Bool :=
  if fs.isdir p then false else fs.pexists p

/-- Prefix test on character lists (the computational content of Python's
`str.startswith`). -/
def listStartsWith : List Char → List Char → Bool
  | [], _ => true
  | _ :: _, [] => false
  | p :: ps, c :: cs => (p == c) && listStartsWith ps cs

/-- Python's `str.startswith`. -/
def strStartsWith (s pat : String) : Bool :=
  listStartsWith pat.toList s.toList

/-- Python's `str.lower` (character-wise lowering; the strings involved are
ASCII, on which `Char.toLower` and `str.lower` agree). -/
def strToLower (s : String) : String :=
  String.mk (s.toList.map Char.toLower)

/-- The scheme whitelist of `MyFile._is_url` (line 36). -/
def urlPatterns : List String := ["http://", "https://", "ftp://", "file://"]

/-- `MyFile._is_url` (lines 34-37). -/
def isUrl (path : String) : Bool :=
  urlPatterns.any (fun pat => strStartsWith path pat)

/-- `MyFile._check_url_availability` (lines 46-69): issue the probe GET
(timeout 5); a delivered response is available iff its code is 200; an
`HTTPError` is available iff its code is not 404; `URLError`, timeouts and
any other exception make it unavailable. -/
def checkUrlAvailability (net : Net) (url : String) : Bool × List Event :=
  let avail :=
    match net.probe url with
    | .success code _ => code == 200
    | .httpError code => !(code == 404)
    | .urlError => false
    | .timeout => false
    | .otherError => false
  (avail, [Event.get url 5])

/-- The directory consulted by `os.access` for a yet-to-be-created file:
`os.path.dirname(filepath) or '.'` (lines 89, 259). -/
def accessDirFor (filepath : String) : String :=
  let d := dirname filepath
  if d = "" then "." else d

/-- Lines 84-90 of `_check_file_access`: an existing target must itself be
writable, a fresh target needs a writable parent directory. -/
def finishW (fs : FS) (filepath : String) : Bool × FS :=
  if fs.pexists filepath then (fs.writable.contains filepath, fs)
  else (fs.writable.contains (accessDirFor filepath), fs)

/-- `MyFile._check_file_access` (lines 71-98).  For `'w'`/`'a'` the parent
directory is created by `os.makedirs` when missing (failure of `makedirs`
returns false), then writability is checked; for `'r'` readability is
checked; any other mode char returns true. -/
def checkFileAccess (fs : FS) (filepath : String) (mode : Char) : Bool × FS :=
  if mode = 'w' ∨ mode = 'a' then
    let d := dirname filepath
    if d ≠ "" ∧ fs.pexists d = false then
      if fs.creatable.contains d then
        finishW { fs with dirs := d :: fs.dirs, writable := d :: fs.writable } filepath
      else (false, fs)
    else finishW fs filepath
  else if mode = 'r' then (fs.readable.contains filepath, fs)
  else (true, fs)

/-- Creation of a fresh file by `open(..., 'w'/'a')`: empty content, owner
read and write permission. -/
def createFile (fs : FS) (p : String) : FS :=
  let fs1 := fs.setFile p ""
  { fs1 with readable := p :: fs1.readable, writable := p :: fs1.writable }

/-- Effect of `open(path, 'w'/'a', encoding='utf-8')` on the filesystem:
`'w'` truncates an existing file; a fresh file is created. -/
def openForWrite (fs : FS) (p : String) (mc : Char) : FS :=
  match fs.files.lookup p with
  | some _ => if mc = 'w' then fs.setFile p "" else fs
  | none => createFile fs p

/-- A resource handle: the stored `self.path` and `self.mode` (the transient
`self.file` stream is opened and closed within a single operation, so it is
not part of the cross-call state, matching the lifecycle in the source). -/
structure MyFile where
  path : String
  mode : String
deriving DecidableEq, Repr

/-- The mode whitelist of `__init__` (line 18). -/
def validModes : List String := ["read", "write", "append", "url"]

/-- `MyFile.__init__` (lines 11-32): lowercase the mode, reject unknown
modes, demand existence for `read`, and for `url` demand a recognized scheme
and a positive availability probe. -/
def MyFile.init (net : Net) (fs : FS) (path mode : String) :
    Except Err MyFile × List Event :=
  let m := strToLower mode
  if !(validModes.contains m) then (.error .valueError, [])
  else if m = "read" ∧ fileExists fs path = false then (.error .fileNotFound, [])
  else if m = "url" then
    if !(isUrl path) then (.error .valueError, [])
    else
      let pr := checkUrlAvailability net path
      if !pr.1 then (.error .connectionError, pr.2)
      else (.ok ⟨path, m⟩, pr.2)
  else (.ok ⟨path, m⟩, [])

/-- `MyFile.read` (lines 122-141): mode check, existence check, then
`_open_file` which re-checks existence and read access, then the content. -/
def MyFile.read (fs : FS) (h : MyFile) : Except Err String :=
  if h.mode ≠ "read" then .error .valueError
  else if fileExists fs h.path = false then .error .fileNotFound
  else if fileExists fs h.path = false then .error .fileNotFound
  else if !(checkFileAccess fs h.path 'r').1 then .error .permissionError
  else
    match fs.files.lookup h.path with
    | some c => .ok c
    | none => .error .ioError

/-- `_open_file` for `write`/`append` followed by `self.file.write(content)`
(lines 108-115, 154-155): re-check access, open (an `IsADirectoryError`
from `open` on a directory is wrapped as `IOError` by line 160), write. -/
def writeOpen (fs : FS) (p : String) (mc : Char) (content : String) :
    Except Err Bool × FS :=
  let r2 := checkFileAccess fs p mc
  if !r2.1 then (.error .permissionError, r2.2)
  else if r2.2.dirs.contains p then (.error .ioError, r2.2)
  else
    let fsO := openForWrite r2.2 p mc
    (.ok true, fsO.setFile p (((fsO.files.lookup p).getD "") ++ content))

/-- `MyFile.write` (lines 143-162): mode check, access check, then
`_open_file` and the write itself. -/
def MyFile.write (fs : FS) (h : MyFile) (content : String) :
    Except Err Bool × FS :=
  if h.mode ≠ "write" ∧ h.mode ≠ "append" then (.error .valueError, fs)
  else
    let mc : Char := if h.mode = "write" then 'w' else 'a'
    let r1 := checkFileAccess fs h.path mc
    if !r1.1 then (.error .permissionError, r1.2)
    else writeOpen r1.2 h.path mc content

/-- `MyFile.read_url` (lines 164-213): mode check, availability probe, then
the content GET with timeout 10.  A delivered response with code other than
200, an `HTTPError` (404 or not), a `URLError` and a timeout all become
`ConnectionError`; any other exception is wrapped as `IOError`. -/
def MyFile.read_url (net : Net) (h : MyFile) :
    Except Err String × List Event :=
  if h.mode ≠ "url" then (.error .valueError, [])
  else
    let pr := checkUrlAvailability net h.path
    if !pr.1 then (.error .connectionError, pr.2)
    else
      let ev2 := pr.2 ++ [Event.get h.path 10]
      match net.fetch h.path with
      | .success code body =>
          if code ≠ 200 then (.error .connectionError, ev2) else (.ok body, ev2)
      | .httpError _ => (.error .connectionError, ev2)
      | .urlError => (.error .connectionError, ev2)
      | .timeout => (.error .connectionError, ev2)
      | .otherError => (.error .ioError, ev2)

/-- The apostrophe character (one of the two quote characters of the regex
patterns in `count_urls`). -/
def apos : Char := Char.ofNat 39

/-- The `["\']` character class of the patterns in lines 225-227. -/
def quoteChar (c : Char) : Bool := c = '"' || c = apos

/-- The characters matched by `\s` in Python's `re` on the text used here
(ASCII and Latin-1 whitespace; further Unicode space characters behave the
same way and never occur in the contents considered). -/
def pySpace (c : Char) : Bool :=
  c = ' ' || c = '\t' || c = '\n' || c = '\r' || c = '\x0b' || c = '\x0c' ||
  c = '\x1c' || c = '\x1d' || c = '\x1e' || c = '\x1f' || c = '\x85' || c = '\xa0'

/-- The `[^\s<>"\']` class of the catch-all pattern (line 236), negated. -/
def urlStopChar (c : Char) : Bool :=
  pySpace c || c = '<' || c = '>' || c = '"' || c = apos

/-- Case-insensitive literal matcher: strip `pat` (given lowercase) from the
front of `s`, returning the rest.  Models `re.IGNORECASE` literal parts. -/
def stripCI : List Char → List Char → Option (List Char)
  | [], s => some s
  | _ :: _, [] => none
  | p :: ps, c :: cs => if c.toLower = p then stripCI ps cs else none

/-- The `https?://` part of every pattern (IGNORECASE): try `https://` then
`http://`, returning the matched source characters and the rest. -/
def matchScheme (s : List Char) : Option (List Char × List Char) :=
  match stripCI ['h','t','t','p','s',':','/','/'] s with
  | some r => some (s.take 8, r)
  | none =>
    match stripCI ['h','t','t','p',':','/','/'] s with
    | some r => some (s.take 7, r)
    | none => none

/-- Matcher for `attr` + `["\'](https?://[^"\']+)["\']` at the head of `s`
(`attr` is `href=` or `src=`): returns the captured group and the total
match length.  The greedy `[^"\']+` run ends at the first quote, which then
serves as the closing quote (the two quotes need not be equal). -/
def tryAttr (attr : List Char) (s : List Char) : Option (List Char × Nat) :=
  match stripCI attr s with
  | none => none
  | some s1 =>
    match s1 with
    | [] => none
    | q :: s2 =>
      if quoteChar q then
        match matchScheme s2 with
        | none => none
        | some (sch, s3) =>
          let run := s3.takeWhile (fun c => !(quoteChar c))
          let s4 := s3.dropWhile (fun c => !(quoteChar c))
          if run.isEmpty then none
          else
            match s4 with
            | [] => none
            | q2 :: _ =>
              if quoteChar q2 then
                some (sch ++ run, attr.length + 1 + sch.length + run.length + 1)
              else none
      else none

/-- Matcher for `url\(["\']?(https?://[^"\')]+)["\']?\)` at the head of `s`:
returns the captured group and the total match length. -/
def tryCss (s : List Char) : Option (List Char × Nat) :=
  match stripCI ['u','r','l','('] s with
  | none => none
  | some s1 =>
    let openQ : Nat × List Char :=
      match s1 with
      | q :: rest => if quoteChar q then (1, rest) else (0, s1)
      | [] => (0, s1)
    match matchScheme openQ.2 with
    | none => none
    | some (sch, s3) =>
      let run := s3.takeWhile (fun c => !(quoteChar c) && c ≠ ')')
      let s4 := s3.dropWhile (fun c => !(quoteChar c) && c ≠ ')')
      if run.isEmpty then none
      else
        match s4 with
        | [] => none
        | c1 :: rest1 =>
          if c1 = ')' then
            some (sch ++ run, 4 + openQ.1 + sch.length + run.length + 1)
          else if quoteChar c1 then
            match rest1 with
            | ')' :: _ => some (sch ++ run, 4 + openQ.1 + sch.length + run.length + 2)
            | _ => none
          else none

/-- Matcher for the catch-all `https?://[^\s<>"\']+` at the head of `s`:
the whole match is returned (the pattern has no group). -/
def tryGeneral (s : List Char) : Option (List Char × Nat) :=
  match matchScheme s with
  | none => none
  | some (sch, s2) =>
    let run := s2.takeWhile (fun c => !(urlStopChar c))
    if run.isEmpty then none else some (sch ++ run, sch.length + run.length)

/-- Scanner loop for `re.findall`, with explicit fuel: at each position try
the matcher; on a match of total length `n` collect the captured group and
resume after the match, else advance one character.  Every successful match
of the patterns here consumes at least one character (it contains `http`),
so fuel equal to the length of the scanned text never runs out. -/
def findAllAux (f : List Char → Option (List Char × Nat)) :
    Nat → List Char → List (List Char)
  | 0, _ => []
  | _ + 1, [] => []
  | fuel + 1, c :: rest =>
    match f (c :: rest) with
    | some (cap, n) => cap :: findAllAux f fuel (rest.drop (n - 1))
    | none => findAllAux f fuel rest

/-- `re.findall` for one of the matchers above: scan left to right, collect
the captured group of each leftmost match and resume after its end. -/
def findAll (f : List Char → Option (List Char × Nat)) (s : List Char) :
    List (List Char) :=
  findAllAux f s.length s

/-- The link extraction of `count_urls` (lines 224-238): the three grouped
patterns plus the catch-all, in source order. -/
def extractUrls (content : String) : List String :=
  let l := content.toList
  let u1 := findAll (tryAttr ['h','r','e','f','=']) l
  let u2 := findAll (tryAttr ['s','r','c','=']) l
  let u3 := findAll tryCss l
  let u4 := findAll tryGeneral l
  (u1 ++ u2 ++ u3 ++ u4).map (fun cs => String.mk cs)

/-- Lines 230-240: the extracted links are put in a set and counted. -/
def countLinks (content : String) : Nat :=
  (extractUrls content).dedup.length

/-- `MyFile.count_urls` (lines 215-247): mode check, then fetch and count;
both a `ConnectionError` and any other exception from the fetch are demoted
to a count of 0 (lines 242-247). -/
def MyFile.count_urls (net : Net) (h : MyFile) :
    Except Err Nat × List Event :=
  if h.mode ≠ "url" then (.error .valueError, [])
  else
    match MyFile.read_url net h with
    | (.ok body, ev) => (.ok (countLinks body), ev)
    | (.error _, ev) => (.ok 0, ev)

/-- The `try` block of `write_url` (lines 263-279): fetch the content, build
a fresh write-mode accessor over the destination (its constructor performs
no checks) and delegate to its `write`.  `ConnectionError` and
`PermissionError` are re-raised as they are; anything else is wrapped as
`IOError`. -/
def writeUrlFetch (net : Net) (fs : FS) (h : MyFile) (filepath : String) :
    Except Err Bool × FS × List Event :=
  match MyFile.read_url net h with
  | (.ok content, ev) =>
      match MyFile.write fs ⟨filepath, "write"⟩ content with
      | (.ok b, fs2) => (.ok b, fs2, ev)
      | (.error .permissionError, fs2) => (.error .permissionError, fs2, ev)
      | (.error _, fs2) => (.error .ioError, fs2, ev)
  | (.error .connectionError, ev) => (.error .connectionError, fs, ev)
  | (.error .permissionError, ev) => (.error .permissionError, fs, ev)
  | (.error _, ev) => (.error .ioError, fs, ev)

/-- `MyFile.write_url` (lines 249-279): mode check; then the pre-fetch
access check of lines 254-261 — an existing destination goes through
`_check_file_access(filepath, 'w')`, a fresh destination requires
`os.access(dirname(filepath) or '.', W_OK)` directly, with no directory
creation; only then the fetch-and-delegate block runs. -/
def MyFile.write_url (net : Net) (fs : FS) (h : MyFile) (filepath : String) :
    Except Err Bool × FS × List Event :=
  if h.mode ≠ "url" then (.error .valueError, fs, [])
  else if fs.pexists filepath then
    let r1 := checkFileAccess fs filepath 'w'
    if !r1.1 then (.error .permissionError, r1.2, [])
    else writeUrlFetch net r1.2 h filepath
  else
    if !(fs.writable.contains (accessDirFor filepath)) then
      (.error .permissionError, fs, [])
    else writeUrlFetch net fs h filepath

/-- A network on which every URL probes reachable (HTTP 200) and fetches
HTTP 200 with the given decoded body. -/
def netServing (content : String) : Net :=
  { probe := fun _ => .success 200 "", fetch := fun _ => .success 200 content }

/-- A network on which every request times out. -/
def netDown : Net :=
  { probe := fun _ => .timeout, fetch := fun _ => .timeout }

/-- A network on which every request yields HTTP 404. -/
def netPage404 : Net :=
  { probe := fun _ => .httpError 404, fetch := fun _ => .httpError 404 }

/-- A network on which every request yields HTTP 500. -/
def netErr500 : Net :=
  { probe := fun _ => .httpError 500, fetch := fun _ => .httpError 500 }

/-- `content` contains no case-insensitive occurrence of `http://` or
`https://` — the formal reading of "no absolute http(s) link occurs". -/
def schemeFree : List Char → Bool
  | [] => true
  | c :: t => (matchScheme (c :: t)).isNone && schemeFree t

/-- A filesystem with nothing but a writable current directory. -/
def fsEmpty : FS := ⟨[], [], [], ["."], []⟩

/-- A filesystem on which directory `d` does not exist but could be created
by `os.makedirs` (and would then be writable). -/
def fsCreatableD : FS := ⟨[], [], [], [], ["d"]⟩

/-- The filesystem produced by writing `hello` to fresh `f.txt` on
`fsEmpty`. -/
def fsAfterHello : FS :=
  ⟨[("f.txt", "hello")], [], ["f.txt"], ["f.txt", "."], []⟩

/-- A page holding the same absolute URL once in an `href` and once in a
`src` attribute. -/
def dedupPage : String := "href=\"http://u.io/a\" src=\"http://u.io/a\""

/-- Helper: write- and append-mode construction succeeds for every path and
every filesystem, touching nothing. -/
lemma init_write_append_eq (net : Net) (fs : FS) (path mode : String)
    (hm : strToLower mode = "write" ∨ strToLower mode = "append") :
    MyFile.init net fs path mode = (.ok ⟨path, strToLower mode⟩, []) := by
  rcases hm with hm | hm <;>
    simp [MyFile.init, hm, validModes]

/-- C10: Constructing a handle in write or append mode performs no
filesystem check and always succeeds for every path string; only the mode
name is validated, and the existence/permission/directory work is left to
`write`. -/
theorem init_write_append_unchecked (net : Net) (fs : FS) (path mode : String)
    (hm : strToLower mode = "write" ∨ strToLower mode = "append") :
    MyFile.init net fs path mode = (.ok ⟨path, strToLower mode⟩, []) :=
  init_write_append_eq net fs path mode hm

theorem init_write_append_unchecked_witness :
    ((strToLower "write" = "write" ∨ strToLower "write" = "append") ∧
      MyFile.init netDown fsEmpty "any path" "write" =
        (.ok ⟨"any path", strToLower "write"⟩, [])) ∧
    MyFile.init netDown ⟨[], ["any path"], [], [], []⟩ "any path" "APPEND" =
      (.ok ⟨"any path", strToLower "APPEND"⟩, []) :=
  ⟨⟨Or.inl (by decide),
      init_write_append_unchecked netDown fsEmpty "any path" "write" (Or.inl (by decide))⟩,
    init_write_append_unchecked netDown ⟨[], ["any path"], [], [], []⟩ "any path" "APPEND"
      (Or.inr (by decide))⟩

/-- C7: For any string without a recognized scheme, url-mode construction
fails with the invalid-argument error and the event log stays empty: no
network call is made before the failure. -/
theorem init_url_bad_scheme (net : Net) (fs : FS) (path mode : String)
    (hm : strToLower mode = "url") (hu : isUrl path = false) :
    MyFile.init net fs path mode = (.error .valueError, []) := by
  simp [MyFile.init, hm, hu, validModes]

theorem init_url_bad_scheme_witness :
    (strToLower "url" = "url" ∧ isUrl "example.com" = false) ∧
      MyFile.init netDown fsEmpty "example.com" "url" = (.error .valueError, []) :=
  ⟨⟨by decide, by decide⟩,
    init_url_bad_scheme netDown fsEmpty "example.com" "url" (by decide) (by decide)⟩

/-- C2: During url-mode construction, a probe answering HTTP 404 and a probe
that times out or fails at the network level each make construction fail
with the connectivity error — the same outcome, down to the same event log —
while an `HTTPError` with any other status is treated as reachable and
construction succeeds. -/
theorem init_url_probe_cases (net : Net) (fs : FS) (path : String)
    (hu : isUrl path = true) :
    (net.probe path = .httpError 404 →
      MyFile.init net fs path "url" = (.error .connectionError, [Event.get path 5])) ∧
    (net.probe path = .timeout →
      MyFile.init net fs path "url" = (.error .connectionError, [Event.get path 5])) ∧
    (net.probe path = .urlError →
      MyFile.init net fs path "url" = (.error .connectionError, [Event.get path 5])) ∧
    (∀ c, c ≠ 404 → net.probe path = .httpError c →
      MyFile.init net fs path "url" = (.ok ⟨path, "url"⟩, [Event.get path 5])) := by
  have hlow : strToLower "url" = "url" := by decide
  refine ⟨fun hp => ?_, fun hp => ?_, fun hp => ?_, fun c hc hp => ?_⟩
  · simp [MyFile.init, hlow, validModes, hu, checkUrlAvailability, hp]
  · simp [MyFile.init, hlow, validModes, hu, checkUrlAvailability, hp]
  · simp [MyFile.init, hlow, validModes, hu, checkUrlAvailability, hp]
  · simp [MyFile.init, hlow, validModes, hu, checkUrlAvailability, hp, hc]

theorem init_url_probe_cases_witness :
    (isUrl "http://x" = true ∧
      (netPage404.probe "http://x" = .httpError 404 ∧
        MyFile.init netPage404 fsEmpty "http://x" "url" =
          (.error .connectionError, [Event.get "http://x" 5]))) ∧
    (netDown.probe "http://x" = .timeout ∧
      MyFile.init netDown fsEmpty "http://x" "url" =
        (.error .connectionError, [Event.get "http://x" 5])) ∧
    ((500 : Nat) ≠ 404 ∧ netErr500.probe "http://x" = .httpError 500 ∧
      MyFile.init netErr500 fsEmpty "http://x" "url" =
        (.ok ⟨"http://x", "url"⟩, [Event.get "http://x" 5])) :=
  ⟨⟨by decide, rfl,
      (init_url_probe_cases netPage404 fsEmpty "http://x" (by decide)).1 rfl⟩,
    ⟨rfl, (init_url_probe_cases netDown fsEmpty "http://x" (by decide)).2.1 rfl⟩,
    ⟨by decide, rfl,
      (init_url_probe_cases netErr500 fsEmpty "http://x" (by decide)).2.2.2 500
        (by decide) rfl⟩⟩

/-- Helper: a successful `write` always carries the value `True`
(line 156 is the only `return` of `MyFile.write`). -/
lemma write_fst_ok (fs : FS) (h : MyFile) (c : String) (b : Bool)
    (hw : (MyFile.write fs h c).1 = .ok b) : b = true := by
  simp only [MyFile.write, writeOpen] at hw
  split at hw
  · simp at hw
  · by_cases hmm : h.mode = "write"
    · simp only [if_pos hmm] at hw
      split_ifs at hw
      simp_all
    · simp only [if_neg hmm] at hw
      split_ifs at hw
      simp_all

/-- Helper: the errors `MyFile.write` can raise once the mode check has
passed are `PermissionError` and `IOError` only. -/
lemma write_fst_error (fs : FS) (h : MyFile) (c : String) (e : Err)
    (hw : (MyFile.write fs h c).1 = .error e)
    (hm : h.mode = "write" ∨ h.mode = "append") :
    e = .permissionError ∨ e = .ioError := by
  simp only [MyFile.write, writeOpen] at hw
  split at hw
  · rcases hm with hm | hm <;> simp [hm] at *
  · by_cases hmm : h.mode = "write"
    · simp only [if_pos hmm] at hw
      split_ifs at hw <;> simp_all
    · simp only [if_neg hmm] at hw
      split_ifs at hw <;> simp_all

/-- Helper: the fetch-and-delegate block of `write_url` yields `True`
whenever it yields a value at all. -/
lemma writeUrlFetch_fst_ok (net : Net) (fs : FS) (h : MyFile) (fp : String)
    (b : Bool) (hw : (writeUrlFetch net fs h fp).1 = .ok b) : b = true := by
  unfold writeUrlFetch at hw
  rcases hru : MyFile.read_url net h with ⟨r, ev⟩
  rw [hru] at hw
  cases r with
  | error e => cases e <;> simp at hw
  | ok content =>
    simp only [] at hw
    rcases hwr : MyFile.write fs ⟨fp, "write"⟩ content with ⟨res, fs2⟩
    rw [hwr] at hw
    cases res with
    | ok b2 =>
        simp at hw
        have hb2 : b2 = true := write_fst_ok fs ⟨fp, "write"⟩ content b2 (by simp [hwr])
        simp_all
    | error e => cases e <;> simp at hw

/-- C9: Whenever `write` returns normally its value is `True`, and the same
holds for `write_url`, which delegates to it; no execution returns `False`. -/
theorem write_never_returns_false :
    (∀ (fs : FS) (h : MyFile) (c : String) (b : Bool),
      (MyFile.write fs h c).1 = .ok b → b = true) ∧
    (∀ (net : Net) (fs : FS) (h : MyFile) (fp : String) (b : Bool),
      (MyFile.write_url net fs h fp).1 = .ok b → b = true) := by
  refine ⟨write_fst_ok, ?_⟩
  intro net fs h fp b hw
  simp only [MyFile.write_url] at hw
  split at hw
  · simp at hw
  · split at hw
    · split at hw
      · simp at hw
      · exact writeUrlFetch_fst_ok _ _ _ _ _ hw
    · split at hw
      · simp at hw
      · exact writeUrlFetch_fst_ok _ _ _ _ _ hw

theorem write_never_returns_false_witness :
    (MyFile.write fsEmpty ⟨"f.txt", "write"⟩ "hi").1 = .ok true ∧ true = true :=
  ⟨rfl,
    write_never_returns_false.1 fsEmpty ⟨"f.txt", "write"⟩ "hi" true rfl⟩

/-- C6: `count_urls` demotes a connectivity failure of the underlying fetch
to the result 0 instead of propagating it (while `read_url` itself, as the
hypothesis records, surfaces the connectivity error). -/
theorem count_urls_demotes_connectivity (net : Net) (h : MyFile)
    (hm : h.mode = "url")
    (hc : (MyFile.read_url net h).1 = .error .connectionError) :
    MyFile.count_urls net h = (.ok 0, (MyFile.read_url net h).2) := by
  unfold MyFile.count_urls
  rw [if_neg (by simp [hm])]
  rcases hru : MyFile.read_url net h with ⟨r, ev⟩
  rw [hru] at hc
  simp at hc
  subst hc
  simp

theorem count_urls_demotes_connectivity_witness :
    ((⟨"http://x", "url"⟩ : MyFile).mode = "url" ∧
      (MyFile.read_url netDown ⟨"http://x", "url"⟩).1 = .error .connectionError) ∧
      MyFile.count_urls netDown ⟨"http://x", "url"⟩ =
        (.ok 0, (MyFile.read_url netDown ⟨"http://x", "url"⟩).2) :=
  ⟨⟨rfl, rfl⟩,
    count_urls_demotes_connectivity netDown ⟨"http://x", "url"⟩ rfl rfl⟩

/-- C3: The mode is fixed at construction (a successful `__init__` stores
exactly the supplied path and the lowercased mode, and no operation of the
embedding modifies a handle), and every data operation invoked on a handle
whose mode does not permit it fails with the usage (invalid-argument) error
before any I/O: the event log stays empty and the filesystem untouched. -/
theorem mode_fixed_and_operations_checked :
    (∀ (net : Net) (fs : FS) (path mode : String) (h : MyFile) (ev : List Event),
      MyFile.init net fs path mode = (.ok h, ev) →
      h.path = path ∧ h.mode = strToLower mode) ∧
    (∀ (fs : FS) (h : MyFile), h.mode ≠ "read" →
      MyFile.read fs h = .error .valueError) ∧
    (∀ (fs : FS) (h : MyFile) (c : String), h.mode ≠ "write" → h.mode ≠ "append" →
      MyFile.write fs h c = (.error .valueError, fs)) ∧
    (∀ (net : Net) (h : MyFile), h.mode ≠ "url" →
      MyFile.read_url net h = (.error .valueError, [])) ∧
    (∀ (net : Net) (h : MyFile), h.mode ≠ "url" →
      MyFile.count_urls net h = (.error .valueError, [])) ∧
    (∀ (net : Net) (fs : FS) (h : MyFile) (fp : String), h.mode ≠ "url" →
      MyFile.write_url net fs h fp = (.error .valueError, fs, [])) := by
  refine ⟨?_, ?_, ?_, ?_, ?_, ?_⟩
  · intro net fs path mode h ev hinit
    simp only [MyFile.init] at hinit
    split at hinit
    · simp at hinit
    · split at hinit
      · simp at hinit
      · split at hinit
        · split at hinit
          · simp at hinit
          · split at hinit
            · simp at hinit
            · simp at hinit
              obtain ⟨h1, -⟩ := hinit
              subst h1
              exact ⟨rfl, rfl⟩
        · simp at hinit
          obtain ⟨h1, -⟩ := hinit
          subst h1
          exact ⟨rfl, rfl⟩
  · intro fs h hm
    simp [MyFile.read, hm]
  · intro fs h c hm1 hm2
    simp [MyFile.write, hm1, hm2]
  · intro net h hm
    simp [MyFile.read_url, hm]
  · intro net h hm
    simp [MyFile.count_urls, hm]
  · intro net fs h fp hm
    simp [MyFile.write_url, hm]

theorem mode_fixed_and_operations_checked_witness :
    ((⟨"f.txt", "url"⟩ : MyFile).mode ≠ "read" ∧
      MyFile.read fsEmpty ⟨"f.txt", "url"⟩ = .error .valueError) ∧
    ((⟨"http://x", "read"⟩ : MyFile).mode ≠ "url" ∧
      MyFile.write_url netDown fsEmpty ⟨"http://x", "read"⟩ "f.txt" =
        (.error .valueError, fsEmpty, [])) :=
  ⟨⟨by decide, mode_fixed_and_operations_checked.2.1 fsEmpty ⟨"f.txt", "url"⟩ (by decide)⟩,
    ⟨by decide,
      mode_fixed_and_operations_checked.2.2.2.2.2 netDown fsEmpty ⟨"http://x", "read"⟩
        "f.txt" (by decide)⟩⟩

lemma str_empty_append (s : String) : "" ++ s = s := by
  obtain ⟨l⟩ := s
  rfl

lemma lookup_setFile_self (fs : FS) (p c : String) :
    ((fs.setFile p c).files.lookup p) = some c := by
  simp [FS.setFile, List.lookup]

lemma setFile_dirs (fs : FS) (p c : String) : (fs.setFile p c).dirs = fs.dirs := rfl

lemma setFile_readable (fs : FS) (p c : String) :
    (fs.setFile p c).readable = fs.readable := rfl

lemma setFile_writable (fs : FS) (p c : String) :
    (fs.setFile p c).writable = fs.writable := rfl

lemma createFile_dirs (fs : FS) (p : String) : (createFile fs p).dirs = fs.dirs := rfl

lemma createFile_writable (fs : FS) (p : String) :
    (createFile fs p).writable = p :: fs.writable := rfl

lemma lookup_createFile_self (fs : FS) (p : String) :
    ((createFile fs p).files.lookup p) = some "" := by
  simp only [createFile]
  exact lookup_setFile_self fs p ""

lemma openForWrite_dirs (fs : FS) (p : String) (mc : Char) :
    (openForWrite fs p mc).dirs = fs.dirs := by
  unfold openForWrite
  split
  · split <;> rfl
  · rfl

lemma openForWrite_lookup_w (fs : FS) (p : String) :
    ((openForWrite fs p 'w').files.lookup p) = some "" := by
  unfold openForWrite
  rcases hl : fs.files.lookup p with _ | s
  · exact lookup_createFile_self fs p
  · simp [lookup_setFile_self]

/-- Helper: the fields of the filesystem produced by a successful
write-mode `write`: the path now holds exactly the written content and is
not a directory. -/
lemma write_w_fields (fs fs' : FS) (p c : String)
    (h : MyFile.write fs ⟨p, "write"⟩ c = (.ok true, fs')) :
    fs'.files.lookup p = some c ∧ fs'.dirs.contains p = false := by
  simp only [MyFile.write, writeOpen] at h
  simp at h
  split_ifs at h with hA hB hC
  · simp at h
  · simp at h
  · simp at h
  · rw [openForWrite_lookup_w] at h
    simp only [Option.getD_some] at h
    rw [str_empty_append] at h
    have hfs : fs' =
        (openForWrite (checkFileAccess (checkFileAccess fs p 'w').2 p 'w').2 p 'w').setFile p c := by
      simp at h
      exact h.symm
    subst hfs
    refine ⟨lookup_setFile_self _ p c, ?_⟩
    rw [setFile_dirs, openForWrite_dirs]
    simpa using hC

/-- C1: `write(content)` on a handle constructed in write mode, followed by
`read()` on a fresh handle constructed in read mode over the same path,
returns exactly the written content byte-for-byte (the readability
hypothesis rules out the one escape, a pre-existing write-only file, since
`read` re-runs the `os.access(·, R_OK)` check). -/
theorem write_read_roundtrip (net : Net) (fs fs' : FS) (path content : String)
    (hw : MyFile)
    (h1 : (MyFile.init net fs path "write").1 = .ok hw)
    (h2 : MyFile.write fs hw content = (.ok true, fs'))
    (h3 : fs'.readable.contains path = true) :
    (MyFile.init net fs' path "read").1 = .ok ⟨path, "read"⟩ ∧
    MyFile.read fs' ⟨path, "read"⟩ = .ok content := by
  have hlow : strToLower "write" = "write" := by decide
  rw [init_write_append_eq net fs path "write" (Or.inl hlow), hlow] at h1
  simp at h1
  subst h1
  obtain ⟨hlook, hdirs⟩ := write_w_fields fs fs' path content h2
  simp at hdirs
  have h3m := h3
  simp at h3m
  have hex : fileExists fs' path = true := by
    simp [fileExists, FS.isdir, FS.pexists, hlook, hdirs]
  constructor
  · have hrlow : strToLower "read" = "read" := by decide
    simp [MyFile.init, hrlow, validModes, hex]
  · have hacc : checkFileAccess fs' path 'r' = (fs'.readable.contains path, fs') := rfl
    simp [MyFile.read, hex, hacc, h3m, hlook]

theorem write_read_roundtrip_witness :
    ((MyFile.init netDown fsEmpty "f.txt" "write").1 = .ok ⟨"f.txt", "write"⟩ ∧
      MyFile.write fsEmpty ⟨"f.txt", "write"⟩ "hello" = (.ok true, fsAfterHello) ∧
      fsAfterHello.readable.contains "f.txt" = true) ∧
    ((MyFile.init netDown fsAfterHello "f.txt" "read").1 = .ok ⟨"f.txt", "read"⟩ ∧
      MyFile.read fsAfterHello ⟨"f.txt", "read"⟩ = .ok "hello") :=
  ⟨⟨rfl, rfl, rfl⟩,
    write_read_roundtrip netDown fsEmpty fsAfterHello "f.txt" "hello"
      ⟨"f.txt", "write"⟩ rfl rfl rfl⟩

/-- Helper: the access check for `'a'` on a fresh bare filename succeeds
without touching the filesystem (the parent is `.`). -/
lemma checkFileAccess_fresh_a (fs : FS) (path : String)
    (h0 : dirname path = "") (h1 : fs.writable.contains "." = true)
    (h2 : fs.files.lookup path = none) (h3 : fs.dirs.contains path = false) :
    checkFileAccess fs path 'a' = (true, fs) := by
  simp at h1 h3
  simp [checkFileAccess, finishW, accessDirFor, FS.pexists, h0, h1, h2, h3]

/-- Helper: the access check for `'a'` on an existing writable bare
filename succeeds without touching the filesystem. -/
lemma checkFileAccess_existing_a (fs : FS) (path s : String)
    (h0 : dirname path = "")
    (h2 : fs.files.lookup path = some s) (h4 : fs.writable.contains path = true) :
    checkFileAccess fs path 'a' = (true, fs) := by
  simp at h4
  simp [checkFileAccess, finishW, accessDirFor, FS.pexists, h0, h2, h4]

/-- Helper: an append-mode `write` to a fresh bare filename creates the
file and leaves exactly the written content. -/
lemma write_append_fresh (fs : FS) (path c : String)
    (h0 : dirname path = "") (h1 : fs.writable.contains "." = true)
    (h2 : fs.files.lookup path = none) (h3 : fs.dirs.contains path = false) :
    MyFile.write fs ⟨path, "append"⟩ c =
      (.ok true, (createFile fs path).setFile path c) := by
  have hca := checkFileAccess_fresh_a fs path h0 h1 h2 h3
  have h3m := h3
  simp at h3m
  simp [MyFile.write, writeOpen, hca, h3m, openForWrite, h2,
    lookup_createFile_self, str_empty_append]

/-- Helper: an append-mode `write` to an existing writable bare filename
holding `s` appends `c` to it. -/
lemma write_append_existing (fs : FS) (path c s : String)
    (h0 : dirname path = "")
    (h2 : fs.files.lookup path = some s) (h4 : fs.writable.contains path = true)
    (h3 : fs.dirs.contains path = false) :
    MyFile.write fs ⟨path, "append"⟩ c = (.ok true, fs.setFile path (s ++ c)) := by
  have hca := checkFileAccess_existing_a fs path s h0 h2 h4
  have h3m := h3
  simp at h3m
  simp [MyFile.write, writeOpen, hca, h3m, openForWrite, h2]

/-- C8: Starting from a path with no existing file (a bare filename in a
writable current directory), `write("A")` then `write("B")` on append-mode
handles over that path leaves the final content exactly `"AB"`, with no
separator inserted. -/
theorem append_twice_ab (net : Net) (fs : FS) (path : String)
    (h0 : dirname path = "") (h1 : fs.writable.contains "." = true)
    (h2 : fs.files.lookup path = none) (h3 : fs.dirs.contains path = false) :
    (MyFile.init net fs path "append").1 = .ok ⟨path, "append"⟩ ∧
    ∃ fs1 fs2,
      MyFile.write fs ⟨path, "append"⟩ "A" = (.ok true, fs1) ∧
      MyFile.write fs1 ⟨path, "append"⟩ "B" = (.ok true, fs2) ∧
      fs2.files.lookup path = some "AB" := by
  constructor
  · have hlow : strToLower "append" = "append" := by decide
    rw [init_write_append_eq net fs path "append" (Or.inr hlow), hlow]
  · refine ⟨(createFile fs path).setFile path "A",
      ((createFile fs path).setFile path "A").setFile path ("A" ++ "B"),
      write_append_fresh fs path "A" h0 h1 h2 h3, ?_, ?_⟩
    · exact write_append_existing _ path "B" "A" h0
        (lookup_setFile_self _ path "A")
        (by simp [setFile_writable, createFile_writable])
        (by rw [setFile_dirs, createFile_dirs]; exact h3)
    · have hab : ("A" ++ "B" : String) = "AB" := rfl
      rw [← hab]
      exact lookup_setFile_self _ path ("A" ++ "B")

theorem append_twice_ab_witness :
    (dirname "f.txt" = "" ∧ fsEmpty.writable.contains "." = true ∧
      fsEmpty.files.lookup "f.txt" = none ∧ fsEmpty.dirs.contains "f.txt" = false) ∧
    ((MyFile.init netDown fsEmpty "f.txt" "append").1 = .ok ⟨"f.txt", "append"⟩ ∧
      ∃ fs1 fs2,
        MyFile.write fsEmpty ⟨"f.txt", "append"⟩ "A" = (.ok true, fs1) ∧
        MyFile.write fs1 ⟨"f.txt", "append"⟩ "B" = (.ok true, fs2) ∧
        fs2.files.lookup "f.txt" = some "AB") :=
  ⟨⟨by decide, rfl, rfl, rfl⟩,
    append_twice_ab netDown fsEmpty "f.txt" (by decide) rfl rfl rfl⟩

/-- C5 counterexample: the destination `d/out.txt` has a missing parent
directory that `os.makedirs` could create (and that would then be
writable), yet `write_url` raises the permission error with no network
event and with the filesystem unchanged — no directory is created during
the pre-fetch check, contradicting "creating parent directories if needed".
-/
theorem write_url_missing_dir_counterexample :
    fsCreatableD.creatable.contains "d" = true ∧
    MyFile.write_url (netServing "BODY") fsCreatableD ⟨"http://e.com", "url"⟩
        "d/out.txt" = (.error .permissionError, fsCreatableD, []) :=
  ⟨rfl, rfl⟩

/-- C5 (amended): `write_url` verifies write access to the destination
before fetching and aborts with the permission error, before any network
event, when the check fails; an existing destination goes through
`_check_file_access(·, 'w')`, while a fresh destination requires its parent
directory (or `.`) to be already writable — no directory is created.  Only
after the check passes does it fetch via `read_url` and delegate to a fresh
write-mode handle's `write`. -/
theorem write_url_precheck_spec :
    (∀ (net : Net) (fs : FS) (h : MyFile) (fp : String),
      h.mode = "url" → fs.pexists fp = false →
      fs.writable.contains (accessDirFor fp) = false →
      MyFile.write_url net fs h fp = (.error .permissionError, fs, [])) ∧
    (∀ (net : Net) (fs fs1 : FS) (h : MyFile) (fp : String),
      h.mode = "url" → fs.pexists fp = true →
      checkFileAccess fs fp 'w' = (false, fs1) →
      MyFile.write_url net fs h fp = (.error .permissionError, fs1, [])) ∧
    (∀ (fs : FS) (h : MyFile) (fp content : String),
      h.mode = "url" → fs.pexists fp = false →
      fs.writable.contains (accessDirFor fp) = true →
      MyFile.write_url (netServing content) fs h fp =
        ((MyFile.write fs ⟨fp, "write"⟩ content).1,
         (MyFile.write fs ⟨fp, "write"⟩ content).2,
         [Event.get h.path 5, Event.get h.path 10])) := by
  refine ⟨?_, ?_, ?_⟩
  · intro net fs h fp hm hpe hwr
    simp at hwr
    simp [MyFile.write_url, hm, hpe, hwr]
  · intro net fs fs1 h fp hm hpe hchk
    simp [MyFile.write_url, hm, hpe, hchk]
  · intro fs h fp content hm hpe hwr
    simp at hwr
    have hru : MyFile.read_url (netServing content) h =
        (.ok content, [Event.get h.path 5, Event.get h.path 10]) := by
      simp [MyFile.read_url, hm, checkUrlAvailability, netServing]
    simp only [MyFile.write_url, hm, hpe, hwr]
    simp only [writeUrlFetch, hru]
    rcases hwrt : MyFile.write fs ⟨fp, "write"⟩ content with ⟨res, fs2⟩
    cases res with
    | ok b => simp [hwr]
    | error e =>
        have he := write_fst_error fs ⟨fp, "write"⟩ content e
          (by rw [hwrt]) (Or.inl rfl)
        rcases he with he | he <;> subst he <;> simp [hwr]

theorem write_url_precheck_spec_witness :
    ((⟨"http://x", "url"⟩ : MyFile).mode = "url" ∧
      fsEmpty.pexists "f.txt" = false ∧
      fsEmpty.writable.contains (accessDirFor "f.txt") = true) ∧
    MyFile.write_url (netServing "B") fsEmpty ⟨"http://x", "url"⟩ "f.txt" =
      ((MyFile.write fsEmpty ⟨"f.txt", "write"⟩ "B").1,
       (MyFile.write fsEmpty ⟨"f.txt", "write"⟩ "B").2,
       [Event.get "http://x" 5, Event.get "http://x" 10]) :=
  ⟨⟨rfl, rfl, rfl⟩,
    write_url_precheck_spec.2.2 fsEmpty ⟨"http://x", "url"⟩ "f.txt" "B" rfl rfl rfl⟩

lemma matchScheme_nil : matchScheme [] = none := rfl

/-- Helper: a successful case-insensitive literal strip leaves exactly the
input with the pattern length dropped. -/
lemma stripCI_eq_drop : ∀ (p s r : List Char), stripCI p s = some r →
    r = List.drop p.length s := by
  intro p
  induction p with
  | nil =>
      intro s r h
      simp [stripCI] at h
      simp [h]
  | cons a ps ih =>
      intro s r h
      cases s with
      | nil => simp [stripCI] at h
      | cons c cs =>
          unfold stripCI at h
          by_cases hca : c.toLower = a
          · rw [if_pos hca] at h
            simpa [List.drop_succ_cons] using ih cs r h
          · rw [if_neg hca] at h
            exact absurd h (by simp)

/-- Helper: on a scheme-free text no suffix starts with `http(s)://`. -/
lemma schemeFree_drop (l : List Char) (hsf : schemeFree l = true) :
    ∀ k, matchScheme (List.drop k l) = none := by
  induction l with
  | nil => intro k; rw [List.drop_nil]; exact matchScheme_nil
  | cons c t ih =>
      intro k
      simp [schemeFree] at hsf
      cases k with
      | zero => simpa using hsf.1
      | succ k => rw [List.drop_succ_cons]; exact ih hsf.2 k

/-- Helper: the catch-all matcher finds nothing on a scheme-free suffix. -/
lemma tryGeneral_none (l : List Char)
    (hP : ∀ k, matchScheme (List.drop k l) = none) : tryGeneral l = none := by
  unfold tryGeneral
  have h0 : matchScheme l = none := by simpa using hP 0
  rw [h0]

/-- Helper: the `href=`/`src=` matcher finds nothing on a scheme-free
suffix. -/
lemma tryAttr_none (attr l : List Char)
    (hP : ∀ k, matchScheme (List.drop k l) = none) : tryAttr attr l = none := by
  unfold tryAttr
  cases hs : stripCI attr l with
  | none => rfl
  | some s1 =>
      have hs1 := stripCI_eq_drop attr l s1 hs
      cases s1 with
      | nil => rfl
      | cons q s2 =>
          have h2 : matchScheme s2 = none := by
            have ht : s2 = List.drop (attr.length + 1) l := by
              have := congrArg List.tail hs1
              simpa [List.tail_drop] using this
            rw [ht]; exact hP _
          simp [h2]

/-- Helper: the CSS `url(...)` matcher finds nothing on a scheme-free
suffix. -/
lemma tryCss_none (l : List Char)
    (hP : ∀ k, matchScheme (List.drop k l) = none) : tryCss l = none := by
  unfold tryCss
  cases hs : stripCI ['u','r','l','('] l with
  | none => rfl
  | some s1 =>
      have hs1 := stripCI_eq_drop _ l s1 hs
      have hPs1 : ∀ k, matchScheme (List.drop k s1) = none := by
        intro k
        rw [hs1, List.drop_drop]
        exact hP _
      cases s1 with
      | nil => rfl
      | cons q s2 =>
          by_cases hq : quoteChar q = true
          · have h2 : matchScheme s2 = none := by simpa using hPs1 1
            simp [hq, h2]
          · have h2 : matchScheme (q :: s2) = none := by simpa using hPs1 0
            simp [hq, h2]

/-- Helper: a matcher that fails on every scheme-free text makes the
scanner collect nothing on a scheme-free text. -/
lemma findAllAux_eq_nil (f : List Char → Option (List Char × Nat))
    (hf : ∀ t, (∀ k, matchScheme (List.drop k t) = none) → f t = none) :
    ∀ (fuel : Nat) (l : List Char),
      (∀ k, matchScheme (List.drop k l) = none) → findAllAux f fuel l = [] := by
  intro fuel
  induction fuel with
  | zero => intro l _; rfl
  | succ n ih =>
      intro l hP
      cases l with
      | nil => rfl
      | cons c t =>
          simp only [findAllAux, hf _ hP]
          exact ih t (fun k => by
            have := hP (k + 1)
            simpa [List.drop_succ_cons] using this)

/-- Helper: the whole link extraction is empty on a scheme-free page. -/
lemma extractUrls_nil (content : String) (hsf : schemeFree content.toList = true) :
    extractUrls content = [] := by
  have hP := schemeFree_drop content.toList hsf
  have h1 := findAllAux_eq_nil (tryAttr ['h','r','e','f','='])
    (fun t ht => tryAttr_none _ t ht) content.toList.length content.toList hP
  have h2 := findAllAux_eq_nil (tryAttr ['s','r','c','='])
    (fun t ht => tryAttr_none _ t ht) content.toList.length content.toList hP
  have h3 := findAllAux_eq_nil tryCss
    (fun t ht => tryCss_none t ht) content.toList.length content.toList hP
  have h4 := findAllAux_eq_nil tryGeneral
    (fun t ht => tryGeneral_none t ht) content.toList.length content.toList hP
  simp only [extractUrls, findAll]
  rw [h1, h2, h3, h4]
  rfl

/-- C4: `count_urls` on a url-mode handle returns 0 for a page whose
content contains no occurrence of `http://`/`https://` (no absolute http(s)
link), and returns 1 for the page `dedupPage` in which the same absolute
URL appears once in an `href` and once in a `src` attribute: the extracted
links are de-duplicated into a set before counting. -/
theorem count_urls_zero_and_dedup :
    (∀ (content : String) (h : MyFile), h.mode = "url" →
      schemeFree content.toList = true →
      (MyFile.count_urls (netServing content) h).1 = .ok 0) ∧
    (∀ h : MyFile, h.mode = "url" →
      (MyFile.count_urls (netServing dedupPage) h).1 = .ok 1) := by
  constructor
  · intro content h hm hsf
    have hru : MyFile.read_url (netServing content) h =
        (.ok content, [Event.get h.path 5, Event.get h.path 10]) := by
      simp [MyFile.read_url, hm, checkUrlAvailability, netServing]
    simp [MyFile.count_urls, hm, hru, countLinks, extractUrls_nil content hsf]
  · intro h hm
    have hru : MyFile.read_url (netServing dedupPage) h =
        (.ok dedupPage, [Event.get h.path 5, Event.get h.path 10]) := by
      simp [MyFile.read_url, hm, checkUrlAvailability, netServing]
    have hcl : countLinks dedupPage = 1 := by decide
    simp [MyFile.count_urls, hm, hru, hcl]

theorem count_urls_zero_and_dedup_witness :
    (((⟨"http://x", "url"⟩ : MyFile).mode = "url" ∧
        schemeFree "a page with no links at all".toList = true) ∧
      (MyFile.count_urls (netServing "a page with no links at all")
          ⟨"http://x", "url"⟩).1 = .ok 0) ∧
    (MyFile.count_urls (netServing dedupPage) ⟨"http://x", "url"⟩).1 = .ok 1 :=
  ⟨⟨⟨rfl, by decide⟩,
      count_urls_zero_and_dedup.1 "a page with no links at all"
        ⟨"http://x", "url"⟩ rfl (by decide)⟩,
    count_urls_zero_and_dedup.2 ⟨"http://x", "url"⟩ rfl⟩
